import Mathlib

/-!
Shallow embedding of `src/yieldmax_app.py`, a single-page Streamlit dashboard
that fetches price and dividend history for YieldMax tickers, caches it in
session state, and renders a price chart, a pivoted dividend table and a
dividend bar chart filtered by a user-selected date range.

Modelling conventions:
* calendar days are integers (proleptic day numbers); a pandas timestamp is a
  day together with an optional timezone offset (`none` = timezone-naive);
* a pandas cell that can be NaN/NaT is an `Option`;
* the external market-data source (yfinance) is an oracle from ticker to raw
  history rows; the UI widgets are modelled from the spec as pure functions of
  the stored user selection;
* one Streamlit rerun is one evaluation of `runScript` on the session state.
-/

/-- One row of the raw per-ticker history returned by the market-data source
(`yf.Ticker(t).history(period="max")`, line 31): the date-index entry carries a
timezone offset (yfinance returns tz-aware timestamps), plus the Close price
and the Dividends cell (`none` models a missing value). -/
structure RawRow where
  date : Int
  tz : Option Int
  close : Rat
  dividends : Option Rat
deriving DecidableEq, Repr

/-- One row of a normalized per-ticker dividend table (`divs` built in
`fetch_yieldmax_data`, lines 32-35): columns Date (day plus timezone
information) and Dividends. -/
structure DivRow where
  date : Int
  tz : Option Int
  amount : Option Rat
deriving DecidableEq, Repr

/-- A cached per-ticker dividend DataFrame. `tickerCol` models the optional
"Ticker" column: line 90 assigns one scalar string that pandas broadcasts to
every row, so the column, when present, is a single constant string. A freshly
fetched table has no Ticker column (`none`). -/
structure DivTable where
  rows : List DivRow
  tickerCol : Option String
deriving DecidableEq, Repr

/-- Lines 32-35: take the Dividends column with its date index
(`reset_index`), fill missing dividends with 0 (`fillna(0)`), and strip the
timezone from the dates (`tz_localize(None)`, which keeps the wall-clock day
and drops the offset). Every resulting amount is `some` value. -/
def normalizeDivs (hist : List RawRow) : List DivRow :=
  hist.map fun r => { date := r.date, tz := none, amount := some (r.dividends.getD 0) }

/-- `fetch_yieldmax_data` (lines 26-38): for each requested ticker, the raw
history becomes the cached price table and the normalized dividend table.
The Python dict is modelled as an association list in ticker order (the
multiselect yields distinct tickers). -/
def fetch_yieldmax_data (oracle : String → List RawRow) (tickers : List String) :
    List (String × List RawRow) × List (String × DivTable) :=
  (tickers.map fun t => (t, oracle t),
   tickers.map fun t => (t, { rows := normalizeDivs (oracle t), tickerCol := none }))

/-- The Streamlit session state (lines 41-44): the price map `fund_data` and
the dividend map `fund_dividends`. -/
structure SessionState where
  fund_data : List (String × List RawRow)
  fund_dividends : List (String × DivTable)
deriving DecidableEq, Repr

/-- Proleptic-Gregorian day number of 2000-01-01, the fixed default start
(line 61). -/
def date20000101 : Int := 730120

/-- The union of all dividend dates in the cache: the Date column of the
concatenation at lines 55-57 (the `tz_localize(None)` at line 57 does not
change the day values, which are already naive after fetch). -/
def allDivDates (m : List (String × DivTable)) : List Int :=
  m.flatMap fun p => p.2.rows.map (·.date)

/-- Lines 54-62: if the cached dividend map is non-empty (Python dict
truthiness), the bounds are the min/max of all cached dividend dates — pandas
`.min()`/`.max()` of an empty column yield NaT, modelled as `none`;
otherwise the fixed defaults (2000-01-01, today). -/
def resolveDateRange (m : List (String × DivTable)) (today : Int) :
    Option Int × Option Int :=
  if m.isEmpty then (some date20000101, some today)
  else ((allDivDates m).min?, (allDivDates m).max?)

/-- Modelled from the spec (the UI framework is an external black box): a
`st.date_input` widget returns the stored user selection when there is one
and it lies within the [lo, hi] bounds — the widget prevents out-of-range
selections — and the given default value otherwise. -/
def date_input (dflt lo hi : Int) (userSel : Option Int) : Int :=
  match userSel with
  | none => dflt
  | some v => if lo ≤ v ∧ v ≤ hi then v else dflt

/-- One plotly line trace of the price figure: a ticker name, the x axis
(the table's native, possibly tz-aware, date index) and the y axis (Close). -/
structure PriceTrace where
  name : String
  x : List (Int × Option Int)
  y : List Rat
deriving DecidableEq, Repr

/-- Lines 72-74: one line trace per cached ticker, plotted against the price
table's own date index and Close column; no date filtering is applied. -/
def buildPriceChart (m : List (String × List RawRow)) : List PriceTrace :=
  m.map fun p =>
    { name := p.1, x := p.2.map fun r => (r.date, r.tz), y := p.2.map (·.close) }

/-- One row of the long-form concatenated dividend table
(`combined_dividends`): Ticker, Date, Dividends. -/
structure LongRow where
  ticker : String
  date : Int
  amount : Option Rat
deriving DecidableEq, Repr

/-- Lines 88-95: concatenate the cached (already tagged) dividend tables into
one long-form table; each row's Ticker is the table's Ticker column. The
assignment at line 90 runs before this, so in the app the column is always
present (the `getD ""` default is never reached there). -/
def combinedRows (m : List (String × DivTable)) : List LongRow :=
  m.flatMap fun p => p.2.rows.map fun r =>
    { ticker := p.2.tickerCol.getD "", date := r.date, amount := r.amount }

/-- Line 96: keep the rows with start_date ≤ Date ≤ end_date (inclusive on
both ends). -/
def filterRange (rows : List LongRow) (s e : Int) : List LongRow :=
  rows.filter fun r => decide (s ≤ r.date ∧ r.date ≤ e)

/-- The pivoted ticker × date matrix, stored column-major: the sorted unique
ticker labels, and one (date, entries) pair per date column with the entries
aligned with `tickers` (`none` = NaN cell). -/
structure PivotTable where
  tickers : List String
  cols : List (Int × List (Option Rat))
deriving DecidableEq, Repr

/-- The cell of the long-form table for a given (ticker, date) key: the
Dividends value of the unique matching row, NaN (`none`) when no row
matches. -/
def lookupAmount (rows : List LongRow) (t : String) (d : Int) : Option Rat :=
  (rows.find? fun r => decide (r.ticker = t ∧ r.date = d)).bind (·.amount)

/-- Insert into a list that is sorted by the Boolean order le. -/
def insertBy (le : α → α → Bool) (x : α) : List α → List α
  | [] => [x]
  | y :: ys => if le x y then x :: y :: ys else y :: insertBy le x ys

/-- Insertion sort by a Boolean order, used for pandas' sorted pivot
labels. -/
def sortBy (le : α → α → Bool) : List α → List α
  | [] => []
  | x :: xs => insertBy le x (sortBy le xs)

/-- Lexicographic order on lists of naturals. -/
def natListLe : List Nat → List Nat → Bool
  | [], _ => true
  | _ :: _, [] => false
  | a :: as, b :: bs => if a < b then true else if b < a then false else natListLe as bs

/-- Lexicographic (code-point) order on strings, for sorting pivot row
labels. -/
def strLeB (a b : String) : Bool :=
  natListLe (a.toList.map Char.toNat) (b.toList.map Char.toNat)

/-- Line 97: `pivot(index="Ticker", columns="Date", values="Dividends")`.
pandas raises ValueError when the (Ticker, Date) key pairs contain a
duplicate, modelled as `none`; otherwise the result is the matrix over the
sorted unique tickers and dates, with NaN where no row exists. -/
def pivotDividends (rows : List LongRow) : Option PivotTable :=
  if (rows.map fun r => (r.ticker, r.date)).Nodup then
    let tks := sortBy strLeB ((rows.map (·.ticker)).dedup)
    let dates := sortBy (fun a b => decide (a ≤ b)) ((rows.map (·.date)).dedup)
    some { tickers := tks,
           cols := dates.map fun d => (d, tks.map fun t => lookupAmount rows t d) }
  else none

/-- The column predicate of line 99: every cell equals 0, or every cell
equals 1, or every cell is NaN. In pandas `NaN == 0` is False, so a column
mixing NaN with zeros is not "all zero"; only the three uniform cases drop. -/
def colDropped (entries : List (Option Rat)) : Bool :=
  entries.all (fun v => decide (v = some 0)) ||
    entries.all (fun v => decide (v = some 1)) ||
    entries.all (fun v => decide (v = none))

/-- Line 99: drop every date column whose values are uniformly 0, uniformly
1, or all NaN; keep the rest, in order. -/
def dropZeroOneNaNCols (tbl : PivotTable) : PivotTable :=
  { tbl with cols := tbl.cols.filter fun c => !colDropped c.2 }

/-- One plotly bar trace of the dividend figure: a ticker name and its
(date, amount) bars. -/
structure BarTrace where
  name : String
  points : List (Int × Rat)
deriving DecidableEq, Repr

/-- The row of the pivoted matrix for the i-th ticker label
(`pivoted_dividends.loc[ticker]`): one (date, cell) pair per column. -/
def pivotRow (tbl : PivotTable) (i : Nat) : List (Int × Option Rat) :=
  tbl.cols.map fun c => (c.1, c.2.getD i none)

/-- Lines 104-113: one bar trace per ticker row of the pivoted table; line
106 keeps exactly the entries whose value is strictly greater than 0 (pandas
`NaN > 0` is False, so NaN cells are excluded as well). -/
def buildDividendChart (tbl : PivotTable) : List BarTrace :=
  (List.range tbl.tickers.length).map fun i =>
    { name := tbl.tickers.getD i "",
      points := (pivotRow tbl i).filterMap fun p =>
        match p.2 with
        | some v => if 0 < v then some (p.1, v) else none
        | none => none }

/-- Lines 93-122: the dividend view built from the tagged cache and the
selected range — concatenate, filter to the range, pivot, drop the
uniform-0/1/NaN columns, render the table and the bar chart. `none` when the
pivot raises on a duplicate key. -/
def buildDividendView (m : List (String × DivTable)) (s e : Int) :
    Option (PivotTable × List BarTrace) :=
  (pivotDividends (filterRange (combinedRows m) s e)).map fun tbl =>
    let final := dropZeroOneNaNCols tbl
    (final, buildDividendChart final)

/-- Line 90 applied across the display loop: the dividend section assigns
each cached DataFrame's Ticker column in place (mutating the session cache)
before appending it to the list that gets concatenated. -/
def tagTickerCols (m : List (String × DivTable)) : List (String × DivTable) :=
  m.map fun p => (p.1, { p.2 with tickerCol := some p.1 })

/-- The per-rerun inputs: the multiselect value, whether the fetch button was
pressed, the external data source, today's date, and the stored user
selections of the two date inputs (`none` = untouched, widget shows its
default). -/
structure Inputs where
  selected : List String
  buttonPressed : Bool
  oracle : String → List RawRow
  today : Int
  userStart : Option Int
  userEnd : Option Int

/-- What one successful rerun renders: the (start, end) dates used by the
filter, the price figure (absent when the price cache is empty, line 70) and
the dividend table plus bar chart (absent when the dividend cache is empty,
line 86, or when the pivot raises). -/
structure Outputs where
  dateRange : Int × Int
  priceChart : Option (List PriceTrace)
  divView : Option (PivotTable × List BarTrace)
deriving DecidableEq, Repr

/-- The fetch-trigger branch (lines 47-51): when the button was pressed the
whole cache is replaced by the freshly fetched maps; otherwise the session
state is untouched. -/
def fetchStep (s : SessionState) (inp : Inputs) : SessionState :=
  if inp.buttonPressed then
    let fd := fetch_yieldmax_data inp.oracle inp.selected
    { fund_data := fd.1, fund_dividends := fd.2 }
  else s

/-- One top-to-bottom script execution (Streamlit rerun model): the fetch
branch (lines 47-51), then resolve the date bounds (54-62), read the two
date inputs (66-67), build the price chart (70-83), then the dividend
section (86-122), whose loop first mutates the cached dividend tables
(line 90). When a resolved bound is NaT the date-input call raises and the
rerun aborts (`none` outputs) with the cache as of the fetch step; a
duplicate-key pivot error loses only the dividend view, the tag mutation
having already happened. -/
def runScript (s : SessionState) (inp : Inputs) : SessionState × Option Outputs :=
  let s1 := fetchStep s inp
  match resolveDateRange s1.fund_dividends inp.today with
  | (some lo, some hi) =>
    let start_date := date_input lo lo hi inp.userStart
    let end_date := date_input hi lo hi inp.userEnd
    let price := if s1.fund_data.isEmpty then none
      else some (buildPriceChart s1.fund_data)
    if s1.fund_dividends.isEmpty then
      (s1, some { dateRange := (start_date, end_date), priceChart := price,
                  divView := none })
    else
      let s2 : SessionState :=
        { s1 with fund_dividends := tagTickerCols s1.fund_dividends }
      (s2, some { dateRange := (start_date, end_date), priceChart := price,
                  divView := buildDividendView s2.fund_dividends start_date end_date })
  | _ => (s1, none)

/-! ## Concrete sample data (used by witnesses and counterexamples) -/

/-- The spec's section-8 scenario: TSLY pays 0.5 then 0, YMAX pays 0 twice. -/
def c1cache : List (String × DivTable) :=
  [("TSLY", { rows := [{ date := 1, tz := none, amount := some (mkRat 1 2) },
                       { date := 32, tz := none, amount := some 0 }], tickerCol := none }),
   ("YMAX", { rows := [{ date := 1, tz := none, amount := some 0 },
                       { date := 32, tz := none, amount := some 0 }], tickerCol := none })]

/-- The pivot of `c1cache` over the full range [1, 32]. -/
def c1tbl : PivotTable :=
  { tickers := ["TSLY", "YMAX"],
    cols := [(1, [some (mkRat 1 2), some 0]), (32, [some 0, some 0])] }

/-- A one-ticker cache with two dividend dates. -/
def c2cache : List (String × DivTable) :=
  [("YMAX", { rows := [{ date := 10, tz := none, amount := some 1 },
                       { date := 3, tz := none, amount := some 0 }], tickerCol := none })]

/-- A cache that holds a ticker whose dividend table is empty. -/
def c3cache : List (String × DivTable) :=
  [("TSLY", { rows := [], tickerCol := none })]

/-- A populated session state whose cached dividend table has no Ticker
column yet (exactly what `fetch_yieldmax_data` produces). -/
def c4state : SessionState :=
  { fund_data := [],
    fund_dividends :=
      [("TSLY", { rows := [{ date := 3, tz := none, amount := some 1 }],
                  tickerCol := none })] }

/-- A rerun with the fetch button not pressed. -/
def c4inputs : Inputs :=
  { selected := [], buttonPressed := false, oracle := fun _ => [],
    today := 738000, userStart := none, userEnd := none }

/-- An external source paying a zero and a 0.25 dividend on days 0 and 100. -/
def c5oracle : String → List RawRow := fun _ =>
  [{ date := 0, tz := none, close := 10, dividends := some 0 },
   { date := 100, tz := none, close := 11, dividends := some (mkRat 1 4) }]

/-- A rerun that presses fetch and then sets start to day 100 and end to
day 0 — both inside the derived bounds [0, 100]. -/
def c5inputs : Inputs :=
  { selected := ["TSLY"], buttonPressed := true, oracle := c5oracle,
    today := 738000, userStart := some 100, userEnd := some 0 }

/-- A fresh, empty session state. -/
def c5state : SessionState := { fund_data := [], fund_dividends := [] }

/-- A rerun on an empty session with no button press and untouched inputs. -/
def c5winputs : Inputs :=
  { selected := [], buttonPressed := false, oracle := fun _ => [],
    today := 738000, userStart := none, userEnd := none }

/-- What the rerun of `c5winputs` on `c5state` renders. -/
def c5wout : Outputs :=
  { dateRange := (date20000101, 738000), priceChart := none, divView := none }

/-- A pivoted table with a positive entry and a zero entry. -/
def c7tbl : PivotTable :=
  { tickers := ["ULTY"], cols := [(4, [some (mkRat 3 10)]), (9, [some 0])] }

/-- An external source whose single history row has a tz-aware date and a
missing Dividends cell. -/
def c8oracle : String → List RawRow := fun t =>
  if t = "TSLY" then
    [{ date := 5, tz := some 120, close := 10, dividends := none }]
  else []

/-- The normalized dividend entry that fetching TSLY from `c8oracle`
produces. -/
def c8pair : String × DivTable :=
  ("TSLY", { rows := [{ date := 5, tz := none, amount := some 0 }],
             tickerCol := none })

/-- An external source returning a tz-aware date with a 0.4 dividend. -/
def c9oracle : String → List RawRow := fun _ =>
  [{ date := 7, tz := some (-300), close := 20, dividends := some (mkRat 2 5) }]

/-- The normalized dividend table that fetching ULTY from `c9oracle`
produces. -/
def c9pair : String × DivTable :=
  ("ULTY", { rows := [{ date := 7, tz := none, amount := some (mkRat 2 5) }],
             tickerCol := none })

/-- A two-ticker cache whose per-ticker dividend dates are distinct. -/
def c10cache : List (String × DivTable) :=
  [("AMDY", { rows := [{ date := 1, tz := none, amount := some 0 },
                       { date := 2, tz := none, amount := some 1 }], tickerCol := none }),
   ("CONY", { rows := [{ date := 1, tz := none, amount := some 2 }], tickerCol := none })]

/-! ## Helper lemmas -/

/-- The Boolean drop test of line 99, as a proposition. -/
theorem colDropped_iff (l : List (Option Rat)) :
    colDropped l = true ↔
      (∀ v ∈ l, v = some 0) ∨ (∀ v ∈ l, v = some 1) ∨ (∀ v ∈ l, v = none) := by
  simp [colDropped, List.all_eq_true, or_assoc]

/-- A non-empty integer list has a least element, computed by `min?`. -/
theorem intList_min_spec (l : List Int) (h : l ≠ []) :
    ∃ a, l.min? = some a ∧ a ∈ l ∧ ∀ b ∈ l, a ≤ b := by
  cases l with
  | nil => exact absurd rfl h
  | cons x xs =>
    have hm : (x :: xs).min? = some (xs.foldl min x) := rfl
    exact ⟨xs.foldl min x, hm,
      List.min?_mem (fun a b => min_choice a b) hm,
      fun b hb =>
        (List.le_min?_iff (fun a b c => le_min_iff) hm).1 (le_refl _) b hb⟩

/-- A non-empty integer list has a greatest element, computed by `max?`. -/
theorem intList_max_spec (l : List Int) (h : l ≠ []) :
    ∃ a, l.max? = some a ∧ a ∈ l ∧ ∀ b ∈ l, b ≤ a := by
  cases l with
  | nil => exact absurd rfl h
  | cons x xs =>
    have hm : (x :: xs).max? = some (xs.foldl max x) := rfl
    exact ⟨xs.foldl max x, hm,
      List.max?_mem (fun a b => max_choice a b) hm,
      fun b hb =>
        (List.max?_le_iff (fun a b c => max_le_iff) hm).1 (le_refl _) b hb⟩

/-- A date-input widget with its default inside [lo, hi] returns a value
inside [lo, hi]. -/
theorem date_input_bounds (dflt lo hi : Int) (h1 : lo ≤ dflt) (h2 : dflt ≤ hi)
    (u : Option Int) :
    lo ≤ date_input dflt lo hi u ∧ date_input dflt lo hi u ≤ hi := by
  cases u with
  | none => exact ⟨h1, h2⟩
  | some v =>
    simp only [date_input]
    split
    · next hv => exact ⟨hv.1, hv.2⟩
    · exact ⟨h1, h2⟩

/-- When the resolver produces proper bounds and today is not before
2000-01-01, the bounds are ordered. -/
theorem resolve_bounds_le (m : List (String × DivTable)) (today lo hi : Int)
    (htoday : date20000101 ≤ today)
    (h : resolveDateRange m today = (some lo, some hi)) : lo ≤ hi := by
  unfold resolveDateRange at h
  by_cases he : m.isEmpty
  · rw [if_pos he, Prod.mk.injEq] at h
    obtain ⟨h1, h2⟩ := h
    obtain rfl := Option.some.inj h1
    obtain rfl := Option.some.inj h2
    exact htoday
  · rw [if_neg he, Prod.mk.injEq] at h
    obtain ⟨h1, h2⟩ := h
    have hne : allDivDates m ≠ [] := by
      intro hempty
      rw [hempty] at h1
      simp at h1
    obtain ⟨lo2, hlo2, _, hlb⟩ := intList_min_spec _ hne
    obtain ⟨hi2, hhi2, hmem2, _⟩ := intList_max_spec _ hne
    obtain rfl := Option.some.inj (hlo2.symm.trans h1)
    obtain rfl := Option.some.inj (hhi2.symm.trans h2)
    exact hlb _ hmem2

/-! ## Claims -/

/-- C1: for every cached dividend map and every selected date range, the
pivoted dividend table drops exactly those date columns in which every value
is 0, or every value is 1, or every value is missing; any date column
containing at least one other value is retained. -/
theorem pivoted_drop_rule_c1 (m : List (String × DivTable)) (s e : Int)
    (tbl : PivotTable)
    (_hp : pivotDividends (filterRange (combinedRows (tagTickerCols m)) s e) =
      some tbl)
    (d : Int) (col : List (Option Rat)) :
    (d, col) ∈ (dropZeroOneNaNCols tbl).cols ↔
      ((d, col) ∈ tbl.cols ∧
        ¬((∀ v ∈ col, v = some 0) ∨ (∀ v ∈ col, v = some 1) ∨
          (∀ v ∈ col, v = none))) := by
  constructor
  · intro hmem
    have h := List.mem_filter.mp hmem
    refine ⟨h.1, fun hc => ?_⟩
    have h2 : (!colDropped col) = true := h.2
    rw [(colDropped_iff col).mpr hc] at h2
    exact absurd h2 (by decide)
  · rintro ⟨h1, h2⟩
    refine List.mem_filter.mpr ⟨h1, ?_⟩
    show (!colDropped col) = true
    by_cases hcd : colDropped col = true
    · exact absurd ((colDropped_iff col).mp hcd) h2
    · simp [Bool.eq_false_iff.mpr hcd]

/-- C1 witness: the spec's section-8 scenario — with the full range selected,
the pivoted table keeps the day-1 column (values 0.5 and 0) and drops the
day-32 column (all values 0). -/
theorem pivoted_drop_rule_c1_witness :
    (1, [some (mkRat 1 2), some 0]) ∈ (dropZeroOneNaNCols c1tbl).cols ∧
    (32, [some (0 : Rat), some 0]) ∉ (dropZeroOneNaNCols c1tbl).cols := by
  have hp : pivotDividends (filterRange (combinedRows (tagTickerCols c1cache)) 1 32) =
      some c1tbl := by decide
  constructor
  · exact (pivoted_drop_rule_c1 c1cache 1 32 c1tbl hp 1 [some (mkRat 1 2), some 0]).mpr
      ⟨by decide, by decide⟩
  · intro hmem
    have h := (pivoted_drop_rule_c1 c1cache 1 32 c1tbl hp 32 [some 0, some 0]).mp hmem
    exact h.2 (Or.inl (by decide))

/-- C2: with an empty cache the resolver yields exactly (2000-01-01, today);
with a non-empty cache (whose dividend-date union is non-empty) it yields the
minimum and the maximum dividend date across all cached tickers. -/
theorem dateRange_resolution_c2 :
    (∀ today : Int, resolveDateRange [] today = (some date20000101, some today)) ∧
    (∀ (m : List (String × DivTable)) (today : Int), m ≠ [] → allDivDates m ≠ [] →
      ∃ lo hi, resolveDateRange m today = (some lo, some hi) ∧
        lo ∈ allDivDates m ∧ hi ∈ allDivDates m ∧
        ∀ d ∈ allDivDates m, lo ≤ d ∧ d ≤ hi) := by
  constructor
  · intro today
    rfl
  · intro m today hm hd
    obtain ⟨lo, hlo, hlomem, hlolb⟩ := intList_min_spec (allDivDates m) hd
    obtain ⟨hi, hhi, hhimem, hhiub⟩ := intList_max_spec (allDivDates m) hd
    have hne : m.isEmpty = false := by
      cases m with
      | nil => exact absurd rfl hm
      | cons a l => rfl
    refine ⟨lo, hi, ?_, hlomem, hhimem, fun d hd2 => ⟨hlolb d hd2, hhiub d hd2⟩⟩
    simp [resolveDateRange, hne, hlo, hhi]

/-- C2 witness: on a one-ticker cache with dividend days 10 and 3, the
resolver yields a proper (min, max) over the union. -/
theorem dateRange_resolution_c2_witness :
    ∃ lo hi, resolveDateRange c2cache 738000 = (some lo, some hi) ∧
      lo ∈ allDivDates c2cache ∧ hi ∈ allDivDates c2cache ∧
      ∀ d ∈ allDivDates c2cache, lo ≤ d ∧ d ≤ hi :=
  dateRange_resolution_c2.2 c2cache 738000 (by decide) (by decide)

/-- C3 counterexample: a cache that holds a ticker whose dividend table is
empty passes the non-empty-dict guard, and both resolved bounds come out as
NaT (`none`) — not usable date bounds. -/
theorem dateRange_empty_union_c3_cex :
    c3cache ≠ [] ∧ resolveDateRange c3cache 738000 = (none, none) := by
  decide

/-- C3 (amended): resolving the bounds never raises — pandas min/max of an
empty column just give NaT — but the bounds are actual dates if and only if
the cache is empty (fixed defaults) or some cached table has a row; with a
non-empty cache of only-empty tables both bounds are NaT. -/
theorem dateRange_empty_union_c3 (m : List (String × DivTable)) (today : Int) :
    ((resolveDateRange m today).1 ≠ none ↔ m = [] ∨ allDivDates m ≠ []) ∧
    ((resolveDateRange m today).2 ≠ none ↔ m = [] ∨ allDivDates m ≠ []) := by
  cases m with
  | nil => simp [resolveDateRange]
  | cons p m => simp [resolveDateRange]

/-- C4 counterexample: a rerun with the fetch button not pressed still
changes the session cache — the dividend-display loop's line-90 assignment
writes the Ticker column into each cached table in place. -/
theorem cache_frame_c4_cex : (runScript c4state c4inputs).1 ≠ c4state := by
  decide

/-- C4 (amended): without a button press the price cache is unchanged, and
the dividend cache keeps its keys and its Date/Dividends rows unchanged; the
only cache mutation outside the fetch branch is the dividend-table step's
in-place (re)write of each cached table's Ticker column. -/
theorem cache_frame_c4 (s : SessionState) (inp : Inputs)
    (hb : inp.buttonPressed = false) :
    (runScript s inp).1.fund_data = s.fund_data ∧
    (runScript s inp).1.fund_dividends.map (fun p => (p.1, p.2.rows)) =
      s.fund_dividends.map (fun p => (p.1, p.2.rows)) := by
  have hfs : fetchStep s inp = s := by simp [fetchStep, hb]
  simp only [runScript, hfs]
  rcases hres : resolveDateRange s.fund_dividends inp.today with ⟨lo?, hi?⟩
  cases lo? with
  | none => simp
  | some lo =>
    cases hi? with
    | none => simp
    | some hi =>
      by_cases he : s.fund_dividends.isEmpty
      · simp [he]
      · simp [he, tagTickerCols, List.map_map]

/-- C4 witness: the frame property instantiated at the concrete rerun of the
counterexample — rows and keys survive even though the cache object itself
changed. -/
theorem cache_frame_c4_witness :
    (runScript c4state c4inputs).1.fund_data = c4state.fund_data ∧
    (runScript c4state c4inputs).1.fund_dividends.map (fun p => (p.1, p.2.rows)) =
      c4state.fund_dividends.map (fun p => (p.1, p.2.rows)) :=
  cache_frame_c4 c4state c4inputs rfl

/-- C5 counterexample: starting from an empty session, one rerun that
fetches data spanning days 0..100 and selects start = 100, end = 0 — both
selections inside the derived bounds — renders with start > end. -/
theorem dateRange_order_c5_cex :
    ((runScript c5state c5inputs).2.map Outputs.dateRange) = some (100, 0) ∧
      ¬((100 : Int) ≤ 0) := by
  decide

/-- C5 (amended): in every rendered state (with today not before the fixed
2000-01-01 default), the start and end dates the script uses each lie within
the derived bounds — the very (min_date, max_date) pair that
`resolveDateRange` computes from the post-fetch cache, which is ordered —
but start ≤ end itself is not enforced; the two date inputs are
independent. -/
theorem dateRange_order_c5 (s : SessionState) (inp : Inputs) (out : Outputs)
    (htoday : date20000101 ≤ inp.today)
    (hout : (runScript s inp).2 = some out) :
    ∃ lo hi,
      resolveDateRange (fetchStep s inp).fund_dividends inp.today =
        (some lo, some hi) ∧
      lo ≤ hi ∧
      lo ≤ out.dateRange.1 ∧ out.dateRange.1 ≤ hi ∧
      lo ≤ out.dateRange.2 ∧ out.dateRange.2 ≤ hi := by
  simp only [runScript] at hout
  split at hout
  next lo hi heq =>
    have hle : lo ≤ hi := resolve_bounds_le _ _ _ _ htoday heq
    have hs := date_input_bounds lo lo hi (le_refl lo) hle inp.userStart
    have hen := date_input_bounds hi lo hi hle (le_refl hi) inp.userEnd
    refine ⟨lo, hi, heq, hle, ?_⟩
    split at hout
    · have h2 := Option.some.inj hout
      rw [← h2]
      exact ⟨hs.1, hs.2, hen.1, hen.2⟩
    · have h2 := Option.some.inj hout
      rw [← h2]
      exact ⟨hs.1, hs.2, hen.1, hen.2⟩
  next =>
    exact absurd hout (by simp)

/-- C5 witness: the in-bounds property instantiated at a rerun on an empty
cache with untouched inputs — the used dates sit inside the resolver's own
(2000-01-01, today) bounds. -/
theorem dateRange_order_c5_witness :
    ∃ lo hi,
      resolveDateRange (fetchStep c5state c5winputs).fund_dividends
          c5winputs.today =
        (some lo, some hi) ∧
      lo ≤ hi ∧
      lo ≤ c5wout.dateRange.1 ∧ c5wout.dateRange.1 ≤ hi ∧
      lo ≤ c5wout.dateRange.2 ∧ c5wout.dateRange.2 ≤ hi :=
  dateRange_order_c5 c5state c5winputs c5wout (by decide) (by decide)

/-- C6: the price chart is independent of the two date inputs — two reruns
that differ only in the selected date range render the same price traces
with the same points. -/
theorem priceChart_independent_c6 (s : SessionState) (sel : List String)
    (btn : Bool) (oracle : String → List RawRow) (today : Int)
    (u1 v1 u2 v2 : Option Int) :
    ((runScript s { selected := sel, buttonPressed := btn, oracle := oracle,
                    today := today, userStart := u1,
                    userEnd := v1 }).2.map Outputs.priceChart) =
    ((runScript s { selected := sel, buttonPressed := btn, oracle := oracle,
                    today := today, userStart := u2,
                    userEnd := v2 }).2.map Outputs.priceChart) := by
  simp only [runScript]
  have hfe : fetchStep s { selected := sel, buttonPressed := btn, oracle := oracle,
                           today := today, userStart := u2, userEnd := v2 } =
      fetchStep s { selected := sel, buttonPressed := btn, oracle := oracle,
                    today := today, userStart := u1, userEnd := v1 } := rfl
  rw [hfe]
  rcases hres : resolveDateRange
      (fetchStep s { selected := sel, buttonPressed := btn, oracle := oracle,
                     today := today, userStart := u1,
                     userEnd := v1 }).fund_dividends today with ⟨lo?, hi?⟩
  cases lo? with
  | none => rfl
  | some lo =>
    cases hi? with
    | none => rfl
    | some hi =>
      by_cases he : (fetchStep s { selected := sel, buttonPressed := btn,
                                   oracle := oracle, today := today,
                                   userStart := u1,
                                   userEnd := v1 }).fund_dividends.isEmpty
      · simp [he]
      · simp [he]

/-- C7: every bar of the dividend chart has a strictly positive value — the
line-106 mask removes zero, negative and NaN entries before charting. -/
theorem dividend_bars_positive_c7 (tbl : PivotTable) (tr : BarTrace)
    (htr : tr ∈ buildDividendChart tbl) (q : Int × Rat) (hq : q ∈ tr.points) :
    0 < q.2 := by
  rcases List.mem_map.mp htr with ⟨i, hi, rfl⟩
  have hq2 : q ∈ (pivotRow tbl i).filterMap fun p =>
      match p.2 with
      | some v => if 0 < v then some (p.1, v) else none
      | none => none := hq
  rcases List.mem_filterMap.mp hq2 with ⟨a, ha, hfa⟩
  rcases a with ⟨d, v?⟩
  cases v? with
  | none => exact absurd hfa (by simp)
  | some v =>
    have hfa2 : (if 0 < v then some ((d : Int), v) else none) = some q := hfa
    by_cases hv : 0 < v
    · rw [if_pos hv] at hfa2
      rw [← Option.some.inj hfa2]
      exact hv
    · rw [if_neg hv] at hfa2
      exact absurd hfa2 (by simp)

/-- C7 witness: the single positive cell of the sample pivoted table becomes
a bar with value 0.3; the zero cell produces no bar. -/
theorem dividend_bars_positive_c7_witness :
    ({ name := "ULTY", points := [((4 : Int), mkRat 3 10)] } : BarTrace) ∈
        buildDividendChart c7tbl ∧
      (0 : Rat) < mkRat 3 10 :=
  ⟨by decide,
    dividend_bars_positive_c7 c7tbl
      { name := "ULTY", points := [((4 : Int), mkRat 3 10)] } (by decide)
      (4, mkRat 3 10) (by decide)⟩

/-- C8: for every fetched ticker, every normalized dividend amount is a
present value, and any history day whose raw Dividends cell is missing is
normalized to amount 0. -/
theorem fetch_fills_missing_c8 (oracle : String → List RawRow)
    (tickers : List String) (p : String × DivTable)
    (hp : p ∈ (fetch_yieldmax_data oracle tickers).2)
    (i : Nat) (hi : i < p.2.rows.length) :
    (p.2.rows.get ⟨i, hi⟩).amount ≠ none ∧
      ∀ hj : i < (oracle p.1).length,
        ((oracle p.1).get ⟨i, hj⟩).dividends = none →
          (p.2.rows.get ⟨i, hi⟩).amount = some 0 := by
  rcases List.mem_map.mp hp with ⟨t, ht, rfl⟩
  constructor
  · simp [normalizeDivs]
  · intro hj hdiv
    have hd2 : (oracle t)[i].dividends = none := by
      simpa using hdiv
    simp [normalizeDivs, hd2]

/-- C8 witness: a raw day with a missing Dividends cell fetches to the
normalized amount 0 (present, not missing). -/
theorem fetch_fills_missing_c8_witness :
    (c8pair.2.rows.get ⟨0, by decide⟩).amount ≠ none ∧
      (c8pair.2.rows.get ⟨0, by decide⟩).amount = some 0 := by
  have h := fetch_fills_missing_c8 c8oracle ["TSLY"] c8pair (by decide) 0 (by decide)
  exact ⟨h.1, h.2 (by decide) (by decide)⟩

/-- C9: after fetch normalization, every date of every per-ticker dividend
table is timezone-naive, so the tables concatenate safely. -/
theorem fetch_tz_naive_c9 (oracle : String → List RawRow)
    (tickers : List String) (p : String × DivTable)
    (hp : p ∈ (fetch_yieldmax_data oracle tickers).2)
    (r : DivRow) (hr : r ∈ p.2.rows) : r.tz = none := by
  rcases List.mem_map.mp hp with ⟨t, ht, rfl⟩
  have hr2 : r ∈ normalizeDivs (oracle t) := hr
  rcases List.mem_map.mp hr2 with ⟨raw, hraw, rfl⟩
  rfl

/-- C9 witness: fetching from a source with tz-aware timestamps yields a
tz-naive normalized row. -/
theorem fetch_tz_naive_c9_witness :
    ({ date := 7, tz := none, amount := some (mkRat 2 5) } : DivRow).tz = none :=
  fetch_tz_naive_c9 c9oracle ["ULTY"] c9pair (by decide)
    { date := 7, tz := none, amount := some (mkRat 2 5) } (by decide)

/-- With pairwise-distinct map keys and pairwise-distinct per-table dates,
the tagged long-form (Ticker, Date) keys are pairwise distinct. -/
theorem tagged_keys_nodup (m : List (String × DivTable))
    (hkeys : (m.map Prod.fst).Nodup)
    (hdates : ∀ p ∈ m, (p.2.rows.map DivRow.date).Nodup) :
    (m.flatMap fun p => p.2.rows.map fun r => ((p.1 : String), r.date)).Nodup := by
  rw [List.nodup_flatMap]
  constructor
  · intro p hp
    have hrw : (p.2.rows.map fun r => ((p.1 : String), r.date)) =
        (p.2.rows.map DivRow.date).map fun d => (p.1, d) := by
      rw [List.map_map]
      rfl
    rw [hrw]
    exact List.Nodup.map (fun d1 d2 h => congrArg Prod.snd h) (hdates p hp)
  · have hpw : List.Pairwise (fun p q => p.1 ≠ q.1) m := List.pairwise_map.mp hkeys
    refine hpw.imp ?_
    intro p q hne x hxp hxq
    rcases List.mem_map.mp hxp with ⟨r1, _, rfl⟩
    rcases List.mem_map.mp hxq with ⟨r2, _, heq⟩
    exact hne (congrArg Prod.fst heq).symm

/-- C10: whenever the cached map's keys are distinct (a Python dict) and
each cached table has pairwise-distinct dividend dates, the pivot of the
filtered long-form table succeeds — the duplicate-entry ValueError branch is
unreachable under that precondition. -/
theorem pivot_no_duplicates_c10 (m : List (String × DivTable)) (s e : Int)
    (hkeys : (m.map Prod.fst).Nodup)
    (hdates : ∀ p ∈ m, (p.2.rows.map DivRow.date).Nodup) :
    (pivotDividends (filterRange (combinedRows (tagTickerCols m)) s e)).isSome := by
  have hrw : (combinedRows (tagTickerCols m)).map (fun r => (r.ticker, r.date)) =
      m.flatMap fun p => p.2.rows.map fun r => ((p.1 : String), r.date) := by
    simp only [combinedRows, tagTickerCols, List.map_flatMap, List.flatMap_map,
      List.map_map]
    rfl
  have hlong : ((combinedRows (tagTickerCols m)).map fun r => (r.ticker, r.date)).Nodup := by
    rw [hrw]
    exact tagged_keys_nodup m hkeys hdates
  have hfil : ((filterRange (combinedRows (tagTickerCols m)) s e).map
      fun r => (r.ticker, r.date)).Nodup :=
    List.Nodup.sublist (List.Sublist.map _ (List.filter_sublist _)) hlong
  unfold pivotDividends
  rw [if_pos hfil]
  rfl

/-- C10 witness: the pivot succeeds on a concrete two-ticker cache whose
per-ticker dates are distinct. -/
theorem pivot_no_duplicates_c10_witness :
    (pivotDividends (filterRange (combinedRows (tagTickerCols c10cache)) 0 5)).isSome :=
  pivot_no_duplicates_c10 c10cache 0 5 (by decide) (by decide)
